import Mathlib

set_option maxRecDepth 10000

/-!
Verification development for the Spark Extent report analyzer.

The repository parses an HTML test report into TestCase records
(two near-duplicate implementations of parseSparkExtentReport) and
forwards them to an analysis boundary (the analyze-report handler).
This file gives a shallow embedding of that code: the browser DOM
(DOMParser, querySelectorAll, textContent, innerHTML, className) is
modelled by an explicit node tree plus a CSS-selector subset covering
exactly the selectors the source uses; the JS regular expressions the
source applies are modelled by dedicated matching functions with the
same backtracking behaviour on the relevant pattern shapes; the clock
(new Date().toISOString()) is an explicit argument.
-/

namespace Spark

/-- JS String.prototype.startsWith on character lists: the second list
is a prefix of the first. -/
def charsHasPre : List Char → List Char → Bool
  | _, [] => true
  | [], _ :: _ => false
  | c :: cs, d :: ds => c == d && charsHasPre cs ds

/-- The needle occurs as a contiguous sublist of the haystack. -/
def charsContains (needle : List Char) : List Char → Bool
  | [] => needle.isEmpty
  | c :: cs => charsHasPre (c :: cs) needle || charsContains needle cs

/-- JS String.prototype.includes. -/
def strIncludes (s sub : String) : Bool := charsContains sub.data s.data

/-- JS String.prototype.startsWith. -/
def strStarts (s pre : String) : Bool := charsHasPre s.data pre.data

/-- First line of a string, as in JS text.split(backslash-n)[0]. -/
def firstLine (s : String) : String :=
  String.mk (s.data.takeWhile (fun c => !(c == '\n')))

/-- JS regex whitespace class, restricted to its ASCII members. -/
def jsWhitespaceChar (c : Char) : Bool :=
  c == ' ' || c == '\t' || c == '\n' || c == '\r' || c == '\x0b' || c == '\x0c'

/-- JS String.prototype.trim (whitespace stripped from both ends). -/
def jsTrim (s : String) : String :=
  String.mk (((s.data.dropWhile jsWhitespaceChar).reverse.dropWhile jsWhitespaceChar).reverse)

/-- JS String.prototype.toLowerCase on ASCII letters. -/
def strLower (s : String) : String := String.mk (s.data.map Char.toLower)

/-- JS String.prototype.substring(0, n). -/
def strTake (s : String) (n : Nat) : String := String.mk (s.data.take n)

def jsDigit (c : Char) : Bool := c.isDigit

/-- Decimal value of a digit run, as in JS parseInt on a digit string. -/
def digitsToNat (ds : List Char) : Nat :=
  ds.foldl (fun a c => 10 * a + (c.toNat - 48)) 0

/-- Maximal nonempty runs of characters not satisfying the separator
predicate, accumulating the current run in reverse. -/
def wordsAux (p : Char → Bool) : List Char → List Char → List (List Char)
  | cur, [] => if cur.isEmpty then [] else [cur.reverse]
  | cur, c :: cs =>
    if p c then (if cur.isEmpty then wordsAux p [] cs else cur.reverse :: wordsAux p [] cs)
    else wordsAux p (c :: cur) cs

/-!  DOM model.  An element has a tag, an attribute list and children;
text nodes carry their data.  -/

inductive DomNode where
  | elem (tag : String) (attrs : List (String × String)) (children : List DomNode)
  | text (s : String)

/-- Attribute lookup on an element. -/
def DomNode.attr (n : DomNode) (a : String) : Option String :=
  match n with
  | .text _ => none
  | .elem _ attrs _ => (attrs.find? (fun p => p.1 == a)).map (fun p => p.2)

/-- Element.className (empty string when the attribute is absent). -/
def DomNode.className (n : DomNode) : String := (n.attr "class").getD ""

def DomNode.tagName : DomNode → String
  | .text _ => ""
  | .elem t _ _ => t

/-- Whitespace-separated class tokens, as matched by a CSS class selector. -/
def classTokens (n : DomNode) : List String :=
  (wordsAux jsWhitespaceChar [] n.className.data).map (fun l => String.mk l)

-- Node.textContent: concatenated data of all descendant text nodes.
mutual
def nodeText : DomNode → String
  | .text s => s
  | .elem _ _ cs => nodesText cs
def nodesText : List DomNode → String
  | [] => ""
  | n :: ns => nodeText n ++ nodesText ns
end

def escText (s : String) : String :=
  s.data.foldl (fun acc c =>
    acc ++ (if c == '&' then "&amp;" else if c == '<' then "&lt;"
            else if c == '>' then "&gt;" else String.singleton c)) ""

def escAttr (s : String) : String :=
  s.data.foldl (fun acc c =>
    acc ++ (if c == '&' then "&amp;" else if c == '"' then "&quot;"
            else String.singleton c)) ""

def voidTag (t : String) : Bool :=
  ["area", "base", "br", "col", "embed", "hr", "img", "input",
   "link", "meta", "source", "track", "wbr"].contains t

-- HTML fragment serialization, as innerHTML produces it.
mutual
def nodeOuterHtml : DomNode → String
  | .text s => escText s
  | .elem t attrs cs =>
    let a := attrs.foldl (fun acc p => acc ++ " " ++ p.1 ++ "=\"" ++ escAttr p.2 ++ "\"") ""
    if voidTag t then "<" ++ t ++ a ++ ">"
    else "<" ++ t ++ a ++ ">" ++ nodesHtml cs ++ "</" ++ t ++ ">"
def nodesHtml : List DomNode → String
  | [] => ""
  | n :: ns => nodeOuterHtml n ++ nodesHtml ns
end

/-- Element.innerHTML. -/
def innerHtml : DomNode → String
  | .text _ => ""
  | .elem _ _ cs => nodesHtml cs

/-! CSS selector subset: exactly the constructs the source selectors use. -/

inductive SimpleSel where
  | tagSel (t : String)
  | classSel (c : String)
  | attrContainsSel (a v : String)
  | attrStartsSel (a v : String)
  | attrExistsSel (a : String)
  | firstChildSel

/-- A compound selector: all simple selectors apply to one element. -/
abbrev Compound := List SimpleSel

/-- A descendant chain, outermost compound first. -/
abbrev ChainSel := List Compound

/-- A comma-separated selector group. -/
abbrev SelGroup := List ChainSel

/-- Context of an element inside the document: ancestor elements
(nearest first) and whether it is the first element child of its parent. -/
structure ECtx where
  ancs : List DomNode
  first : Bool

def matchesSimple (fc : Bool) (n : DomNode) : SimpleSel → Bool
  | .tagSel t => strLower n.tagName == strLower t
  | .classSel c => (classTokens n).contains c
  | .attrContainsSel a v =>
    match n.attr a with
    | some s => strIncludes s v
    | none => false
  | .attrStartsSel a v =>
    match n.attr a with
    | some s => strStarts s v
    | none => false
  | .attrExistsSel a => (n.attr a).isSome
  | .firstChildSel => fc

def matchesCompound (fc : Bool) (n : DomNode) (c : Compound) : Bool :=
  c.all (matchesSimple fc n)

/-- Match the remaining chain (innermost remaining compound first)
against the ancestor list (nearest first). -/
def matchesAnc : List Compound → List DomNode → Bool
  | [], _ => true
  | _ :: _, [] => false
  | c :: cs, a :: ancs =>
    (matchesCompound false a c && matchesAnc cs ancs) || matchesAnc (c :: cs) ancs

def chainMatches (ctx : ECtx) (n : DomNode) (chain : ChainSel) : Bool :=
  match chain.reverse with
  | [] => false
  | last :: revRest => matchesCompound ctx.first n last && matchesAnc revRest ctx.ancs

def groupMatches (ctx : ECtx) (n : DomNode) (g : SelGroup) : Bool :=
  g.any (chainMatches ctx n)

-- All elements in document (pre-)order, each with its context.  The
-- seen flag records whether an element sibling was already passed.
mutual
def elemsNode (ancs : List DomNode) (fc : Bool) : DomNode → List (ECtx × DomNode)
  | .text _ => []
  | .elem t a cs =>
    (⟨ancs, fc⟩, .elem t a cs) :: elemsSibs (.elem t a cs :: ancs) false cs
def elemsSibs (ancs : List DomNode) (seen : Bool) : List DomNode → List (ECtx × DomNode)
  | [] => []
  | .text _ :: ns => elemsSibs ancs seen ns
  | .elem t a cs :: ns =>
    elemsNode ancs (!seen) (.elem t a cs) ++ elemsSibs ancs true ns
end

/-- A parsed document: its child node list (DOMParser output). -/
structure Doc where
  children : List DomNode

def docElemsC (d : Doc) : List (ECtx × DomNode) := elemsSibs [] false d.children

/-- document.querySelectorAll for a selector group, in document order. -/
def qsaDoc (d : Doc) (g : SelGroup) : List (ECtx × DomNode) :=
  (docElemsC d).filter (fun p => groupMatches p.1 p.2 g)

/-- Strict descendants of a selected element, with document-level context. -/
def nodeDescendantsC (p : ECtx × DomNode) : List (ECtx × DomNode) :=
  match p.2 with
  | .text _ => []
  | .elem t a cs => elemsSibs (.elem t a cs :: p.1.ancs) false cs

/-- element.querySelectorAll. -/
def qsaNode (p : ECtx × DomNode) (g : SelGroup) : List (ECtx × DomNode) :=
  (nodeDescendantsC p).filter (fun q => groupMatches q.1 q.2 g)

/-- element.querySelector. -/
def qsNode (p : ECtx × DomNode) (g : SelGroup) : Option (ECtx × DomNode) :=
  (qsaNode p g).head?

/-- document.body. -/
def docBody (d : Doc) : Option (ECtx × DomNode) :=
  (docElemsC d).find? (fun p => p.2.tagName == "body")

def selC (c : String) : Compound := [.classSel c]

def selT (t : String) : Compound := [.tagSel t]

/-- A document of the shape DOMParser produces: html wrapping an empty
head and a body with the given children. -/
def mkDoc (bodyChildren : List DomNode) : Doc :=
  ⟨[.elem "html" [] [.elem "head" [] [], .elem "body" [] bodyChildren]]⟩

/-!
Models of the JS regular expressions used by the source.

The count patterns all have the shape: keyword, an optional literal
suffix (or a character-class star over suffix letters), a run of
whitespace, a run of whitespace-or-colon, then a captured digit run.
Because the gap classes cannot contain digits or suffix letters, the
greedy backtracking of the JS engine is deterministic here: at a given
start position the suffix alternatives are tried in order and the gap
and digit runs are maximal.  The scan over start positions is leftmost,
as for a non-global JS match call.
-/

def countGapChar (c : Char) : Bool := c == ':' || jsWhitespaceChar c

/-- Gap run followed by a captured digit run; none when no digit follows. -/
def countTail (cs : List Char) : Option Nat :=
  let rest := cs.dropWhile countGapChar
  let ds := rest.takeWhile jsDigit
  if ds.isEmpty then none else some (digitsToNat ds)

/-- Try the count pattern at the current position: keyword, then each
suffix alternative in order (then no suffix), then gap and digits. -/
def countAt (kw : List Char) (alts : List (List Char)) (cs : List Char) : Option Nat :=
  if charsHasPre cs kw then
    let rest := cs.drop kw.length
    let branches :=
      (alts.filterMap (fun a =>
        if charsHasPre rest a then some (rest.drop a.length) else none)) ++ [rest]
    branches.findSome? countTail
  else none

def findCountAux (kw : List Char) (alts : List (List Char)) : List Char → Option Nat
  | [] => none
  | c :: cs =>
    match countAt kw alts (c :: cs) with
    | some n => some n
    | none => findCountAux kw alts cs

/-- Leftmost case-insensitive match of a count pattern with optional
suffix alternatives, e.g. fail(?:ed|ure)? gap digits. -/
def findCount (kw : String) (alts : List String) (s : String) : Option Nat :=
  findCountAux (strLower kw).data (alts.map (fun a => (strLower a).data)) (strLower s).data

/-- Try the class-star count pattern at the current position: keyword,
then a maximal run of the class characters, then gap and digits. -/
def countAtCls (kw : List Char) (cls : List Char) (cs : List Char) : Option Nat :=
  if charsHasPre cs kw then
    countTail ((cs.drop kw.length).dropWhile (fun c => cls.contains c))
  else none

def findCountClsAux (kw : List Char) (cls : List Char) : List Char → Option Nat
  | [] => none
  | c :: cs =>
    match countAtCls kw cls (c :: cs) with
    | some n => some n
    | none => findCountClsAux kw cls cs

/-- Leftmost case-insensitive match of a pattern such as pass[ed]* gap
digits, as used by the second parser implementation. -/
def findCountCls (kw : String) (cls : String) (s : String) : Option Nat :=
  findCountClsAux (strLower kw).data (strLower cls).data (strLower s).data

/-! Model of the global test-name token regex
test[_ ws -]?name[quote]?ws*[gt colon]ws*([caret lt newline]+)
used by the first implementation.  The matcher returns the captured
tails in order; the source then strips the prefix and trims, which on
these matches leaves exactly the trimmed captured tail. -/

def lcEq (a b : Char) : Bool := a.toLower == b.toLower

def lcHasPre : List Char → List Char → Bool
  | _, [] => true
  | [], _ :: _ => false
  | c :: cs, d :: ds => lcEq c d && lcHasPre cs ds

def nameSepChar (c : Char) : Bool := c == '_' || c == '-' || jsWhitespaceChar c

def quoteChar (c : Char) : Bool := c == '"' || c.toNat == 39

def capAllowed (c : Char) : Bool := !(c == '<' || c == '\n')

/-- Match gap, a gt-or-colon, gap, then the nonempty capture, returning
the capture and the rest of the input after the whole match.  When the
maximal whitespace run is followed by no capturable character, the JS
engine backtracks the second whitespace star by one character, making
that character the capture, provided it is not a newline. -/
def afterColonGap (cs : List Char) : Option (List Char × List Char) :=
  let w := cs.takeWhile jsWhitespaceChar
  match cs.drop w.length with
  | c :: cs2 =>
    if c == '>' || c == ':' then
      let w2 := cs2.takeWhile jsWhitespaceChar
      let rest := cs2.drop w2.length
      let cap := rest.takeWhile capAllowed
      if !cap.isEmpty then some (cap, rest.drop cap.length)
      else
        match w2.getLast? with
        | some lc => if lc == '\n' then none else some ([lc], rest)
        | none => none
    else none
  | [] => none

/-- Try the full test-name token pattern at the current position. -/
def tokMatchAt (cs : List Char) : Option (List Char × List Char) :=
  if lcHasPre cs ("test".data) then
    let r0 := cs.drop 4
    let sepBranches : List (List Char) :=
      match r0 with
      | c :: r1 => if nameSepChar c then [r1, r0] else [r0]
      | [] => [r0]
    sepBranches.findSome? (fun r =>
      if lcHasPre r ("name".data) then
        let r2 := r.drop 4
        let quoteBranches : List (List Char) :=
          match r2 with
          | c :: r3 => if quoteChar c then [r3, r2] else [r2]
          | [] => [r2]
        quoteBranches.findSome? afterColonGap
      else none)
  else none

/-- Global scan: after each match continue after it, otherwise advance
one character.  The fuel equals the input length, which bounds the
number of steps since every step consumes at least one character. -/
def tokScan : Nat → List Char → List (List Char)
  | 0, _ => []
  | _ + 1, [] => []
  | fuel + 1, c :: cs =>
    match tokMatchAt (c :: cs) with
    | some (cap, rest) => cap :: tokScan fuel rest
    | none => tokScan fuel cs

/-- Captured tails of the global test-name token regex over the raw
HTML text. -/
def testNameTails (html : String) : List String :=
  (tokScan html.data.length html.data).map (fun l => String.mk l)

/-- Model of the data-URI regex data:([caret semi]+);base64,(.+): scan
for the leftmost position admitting a match; the mime part is the run
up to the first semicolon, the payload the maximal run of non-newline
characters after the base64 marker. -/
def dataUriAt (cs : List Char) : Option (String × String) :=
  if charsHasPre cs ("data:".data) then
    let rest := cs.drop 5
    let mime := rest.takeWhile (fun c => !(c == ';'))
    if mime.isEmpty then none
    else
      let r2 := rest.drop mime.length
      if charsHasPre r2 (";base64,".data) then
        let payload := (r2.drop 8).takeWhile (fun c => !(c == '\n' || c == '\r'))
        if payload.isEmpty then none else some (String.mk mime, String.mk payload)
      else none
  else none

def dataUriScan : List Char → Option (String × String)
  | [] => none
  | c :: cs =>
    match dataUriAt (c :: cs) with
    | some r => some r
    | none => dataUriScan cs

def dataUriMatch (s : String) : Option (String × String) := dataUriScan s.data

/-- JS parseFloat restricted to digit-and-dot strings (the only inputs
it receives in the source, after the non-numeric strip): longest valid
decimal prefix, none for NaN. -/
def jsParseFloatDigits (s : String) : Option Rat :=
  let cs := s.data
  let ip := cs.takeWhile jsDigit
  let rest := cs.drop ip.length
  match rest with
  | c :: r2 =>
    if c == '.' then
      let fp := r2.takeWhile jsDigit
      if ip.isEmpty && fp.isEmpty then none
      else some ((digitsToNat ip : Rat) + (digitsToNat fp : Rat) / ((10 : Rat) ^ fp.length))
    else if ip.isEmpty then none else some ((digitsToNat ip : Rat))
  | [] => if ip.isEmpty then none else some ((digitsToNat ip : Rat))

/-! Data model: the TestCase record of types/analysis, with optional
fields modelled as Option (JS undefined is none). -/

structure Screenshot where
  name : String
  mimeType : String
  base64Data : String
deriving DecidableEq, Repr

inductive Status where
  | pass
  | fail
  | skip
deriving DecidableEq, Repr, BEq

structure TestCase where
  id : String
  name : String
  className : String
  status : Status
  duration : Rat
  errorMessage : Option String := none
  stackTrace : Option String := none
  logs : Option (List String) := none
  stepsToReproduce : Option (List String) := none
  screenshots : Option (List Screenshot) := none
  timestamp : Option String := none
deriving DecidableEq, Repr

/-- The record with its timestamp field cleared: outputs compared up to
timestamps are compared after mapping this. -/
def stripTimestamp (t : TestCase) : TestCase := { t with timestamp := none }

/-!
First parseSparkExtentReport implementation (the full one, with steps,
screenshots and the eleven-selector cascade).  The DOMParser call is
modelled by taking the parsed document alongside the raw HTML string;
new Date().toISOString() is the explicit `now` argument.
-/

namespace Parser1

/-- The ordered cascade selector list of the source. -/
def sparkSelectors : List SelGroup :=
  [ [[selC "test"]],
    [[selC "test-content"]],
    [[[.classSel "card", .classSel "test-card"]]],
    [[[.tagSel "li", .classSel "test"]]],
    [[[.tagSel "div", .attrContainsSel "class" "test"]]],
    [[selT "table", selT "tbody", selT "tr"]],
    [[selC "table-responsive", selT "tbody", selT "tr"]],
    [[selC "node"]],
    [[selC "category-content", selC "test-detail"]],
    [[selC "test-item"]],
    [[selC "test-row"]] ]

/-- The status-class fallback query used when every cascade selector
is empty. -/
def statusFallbackGroup : SelGroup :=
  [ [[.attrContainsSel "class" "pass"]],
    [[.attrContainsSel "class" "fail"]],
    [[.attrContainsSel "class" "skip"]],
    [[.attrContainsSel "class" "error"]] ]

/-- The predicate the status-class fallback query amounts to: the class
attribute is present and contains one of the four status substrings. -/
def classAttrHasStatusToken (n : DomNode) : Bool :=
  match n.attr "class" with
  | some s =>
    strIncludes s "pass" || strIncludes s "fail" || strIncludes s "skip" ||
      strIncludes s "error"
  | none => false

/-- The cascade loop: the first selector whose query is nonempty. -/
def cascadeSelect (doc : Doc) (gs : List SelGroup) : Option (List (ECtx × DomNode)) :=
  gs.findSome? (fun g =>
    let ns := qsaDoc doc g
    if ns.isEmpty then none else some ns)

/-- Selected test nodes: cascade result, else the status-class fallback. -/
def selectTestNodes (doc : Doc) : List (ECtx × DomNode) :=
  (cascadeSelect doc sparkSelectors).getD (qsaDoc doc statusFallbackGroup)

def nameSelGroups : List SelGroup :=
  [ [[selC "test-name"]], [[selC "name"]], [[[.tagSel "td", .firstChildSel]]],
    [[selT "h5"]], [[selC "card-title"]], [[selC "test-title"]], [[selT "a"]] ]

/-- Name extraction: first name selector whose first hit has nonempty
trimmed text; otherwise the first line of the node text truncated to
100 characters, or a positional placeholder. -/
def extractName (cn : ECtx × DomNode) (i : Nat) : String :=
  match nameSelGroups.findSome? (fun g =>
      match qsNode cn g with
      | some q => let t := jsTrim (nodeText q.2); if t == "" then none else some t
      | none => none) with
  | some nm => nm
  | none =>
    let fb := strTake (firstLine (jsTrim (nodeText cn.2))) 100
    if fb == "" then "Test " ++ toString (i + 1) else fb

/-- Whole-node status heuristics over class, inner markup and text. -/
def wholeNodeStatus (n : DomNode) : Status :=
  let nodeTextL := strLower (nodeText n)
  let nodeClassL := strLower n.className
  let nodeHtmlL := strLower (innerHtml n)
  if strIncludes nodeClassL "fail" || strIncludes nodeClassL "error" ||
     strIncludes nodeHtmlL "fail" || strIncludes nodeHtmlL "error" ||
     strIncludes nodeTextL "failed" || strIncludes nodeTextL "exception" then .fail
  else if strIncludes nodeClassL "skip" || strIncludes nodeHtmlL "skip" ||
          strIncludes nodeTextL "skipped" then .skip
  else if strIncludes nodeClassL "pass" || strIncludes nodeHtmlL "pass" ||
          strIncludes nodeHtmlL "✓" || strIncludes nodeHtmlL "success" then .pass
  else .pass

def badgeGroup : SelGroup :=
  [ [selC "status"], [selC "badge"], [[.attrContainsSel "class" "status"]],
    [selC "test-status"] ]

/-- The dedicated status badge sub-element the classifier consults. -/
def badgeEl (cn : ECtx × DomNode) : Option (ECtx × DomNode) := qsNode cn badgeGroup

/-- The fail condition of the badge re-evaluation stage. -/
def badgeFailInd (cn : ECtx × DomNode) : Bool :=
  match badgeEl cn with
  | some b =>
    let st := strLower (nodeText b.2)
    let sc := strLower b.2.className
    strIncludes st "fail" || strIncludes sc "fail" || strIncludes sc "danger"
  | none => false

/-- The skip condition of the badge re-evaluation stage. -/
def badgeSkipInd (cn : ECtx × DomNode) : Bool :=
  match badgeEl cn with
  | some b =>
    let st := strLower (nodeText b.2)
    let sc := strLower b.2.className
    strIncludes st "skip" || strIncludes sc "skip" || strIncludes sc "warning"
  | none => false

/-- Full status classification: whole-node heuristics, then the badge
re-evaluation which may overwrite with fail or skip. -/
def classifyStatus (cn : ECtx × DomNode) : Status :=
  let s := wholeNodeStatus cn.2
  match badgeEl cn with
  | none => s
  | some _ => if badgeFailInd cn then .fail else if badgeSkipInd cn then .skip else s

def errorSelGroups : List SelGroup :=
  [ [[selC "exception"]], [[selC "error"]], [[selC "stacktrace"]],
    [[selC "stack-trace"]], [[selT "pre"]], [[selT "code"]],
    [[selC "log"]], [[selC "step-details"]] ]

structure LogState where
  logs : List String
  errorMessage : String
  stackTrace : String

/-- One step of the error-and-log scan for a trimmed text block. -/
def errStep (s : LogState) (text : String) : LogState :=
  if text == "" then s
  else
    let logs := s.logs ++ [text]
    let st :=
      if (strIncludes text "Exception" || strIncludes text "Error" ||
          strIncludes text "at ") && s.stackTrace == "" then text else s.stackTrace
    let em :=
      if s.errorMessage == "" && (strIncludes text "Assert" ||
          strIncludes text "Expected" || strIncludes text "Error:") then firstLine text
      else s.errorMessage
    ⟨logs, em, st⟩

/-- Error message, stack trace and logs collected over every element
matching any error selector, in selector-then-document order. -/
def errorLogState (cn : ECtx × DomNode) : LogState :=
  ((errorSelGroups.map (fun g =>
      (qsaNode cn g).map (fun q => jsTrim (nodeText q.2)))).flatten).foldl errStep ⟨[], "", ""⟩

def stepSelGroups : List SelGroup :=
  [ [[selC "step"]], [[selC "test-step"]], [[selC "log-step"]], [[selC "step-name"]],
    [[selC "step-details"]], [[selC "node-step"]], [[[.tagSel "li", .classSel "step"]]] ]

def stepsFallbackGroup : SelGroup :=
  [ [selC "log"], [selC "test-log"], [[.attrContainsSel "class" "step"]] ]

/-- Steps to reproduce: length-banded texts from the step selectors,
with a fallback scan over generic log selectors when empty. -/
def stepsOf (cn : ECtx × DomNode) : List String :=
  let primary :=
    ((stepSelGroups.map (fun g =>
        (qsaNode cn g).map (fun q => jsTrim (nodeText q.2)))).flatten).filter
      (fun t => !(t == "") && decide (t.length > 5) && decide (t.length < 500))
  if primary.isEmpty then
    ((qsaNode cn stepsFallbackGroup).map (fun q => jsTrim (nodeText q.2))).filter
      (fun t => !(t == "") && decide (t.length > 5) && decide (t.length < 300) &&
        !(strIncludes t "Exception"))
  else primary

def imgSelGroups : List SelGroup :=
  [ [[[.tagSel "img", .attrStartsSel "src" "data:image"]]],
    [[[.tagSel "img", .classSel "screenshot"]]],
    [[selC "screenshot", selT "img"]],
    [[selC "test-img", selT "img"]],
    [[selC "media", selT "img"]] ]

/-- Inline base64 screenshots; the record name counts the test cases
pushed so far (accLen) and the image index within its selector run. -/
def screenshotsOf (cn : ECtx × DomNode) (accLen : Nat) : List Screenshot :=
  (imgSelGroups.map (fun g =>
    ((qsaNode cn g).enum).filterMap (fun p =>
      let src := (p.2.2.attr "src").getD ""
      if strStarts src "data:image" then
        match dataUriMatch src with
        | some mp =>
          some ⟨"screenshot-" ++ toString (accLen + 1) ++ "-" ++ toString (p.1 + 1) ++ ".png",
                mp.1, mp.2⟩
        | none => none
      else none))).flatten

def linkGroup : SelGroup :=
  [ [[.tagSel "a", .attrContainsSel "href" "screenshot"]],
    [[.tagSel "a", .attrContainsSel "href" "image"]],
    [selC "screenshot-link"] ]

/-- Screenshot link references appended to the log list. -/
def linkLogs (cn : ECtx × DomNode) : List String :=
  (qsaNode cn linkGroup).filterMap (fun q =>
    let href := (q.2.attr "href").getD ""
    if !(href == "") && (strIncludes href ".png" || strIncludes href ".jpg" ||
        strIncludes href ".jpeg") then
      some ("Screenshot available: " ++ href)
    else none)

def classNameSelGroups : List SelGroup :=
  [ [[selC "class-name"]], [[selC "category"]], [[selC "test-class"]], [[selC "package"]] ]

def extractClassName (cn : ECtx × DomNode) : String :=
  match classNameSelGroups.findSome? (fun g =>
      match qsNode cn g with
      | some q => let t := jsTrim (nodeText q.2); if t == "" then none else some t
      | none => none) with
  | some c => c
  | none => "Test Suite"

def durationGroup : SelGroup :=
  [ [selC "duration"], [selC "time"], [[.attrContainsSel "class" "time"]],
    [selC "test-time"] ]

/-- Duration: text of the first duration-like element, stripped to
digits and dots, parsed as a float, defaulting to 0. -/
def durationOf (cn : ECtx × DomNode) : Rat :=
  let dtext :=
    match qsNode cn durationGroup with
    | some q => let t := nodeText q.2; if t == "" then "0" else t
    | none => "0"
  (jsParseFloatDigits (String.mk (dtext.data.filter (fun c => jsDigit c || c == '.')))).getD 0

/-- One candidate node to at most one record: the push is guarded by
the extracted name being longer than two characters. -/
def mkTestCase (now : String) (accLen : Nat) (i : Nat) (cn : ECtx × DomNode) :
    Option TestCase :=
  let name := extractName cn i
  let status := classifyStatus cn
  let es := errorLogState cn
  let steps := stepsOf cn
  let shots := screenshotsOf cn accLen
  let logs := es.logs ++ linkLogs cn
  if !(name == "") && decide (name.length > 2) then
    some { id := "test-" ++ toString (i + 1)
           name := name
           className := extractClassName cn
           status := status
           duration := durationOf cn
           errorMessage := if es.errorMessage == "" then none else some es.errorMessage
           stackTrace := if es.stackTrace == "" then none else some es.stackTrace
           logs := if logs.isEmpty then none else some logs
           stepsToReproduce := if steps.isEmpty then none else some steps
           screenshots := if shots.isEmpty then none else some shots
           timestamp := some now }
  else none

/-- The push guard of the loop body, as a predicate on a node and its
loop index. -/
def nameLenOk (i : Nat) (cn : ECtx × DomNode) : Bool :=
  let name := extractName cn i
  !(name == "") && decide (name.length > 2)

/-- The forEach loop over the selected nodes, carrying the list of
records pushed so far (its length feeds the screenshot names). -/
def structAux (now : String) : List (Nat × (ECtx × DomNode)) → List TestCase → List TestCase
  | [], acc => acc
  | p :: rest, acc => structAux now rest (acc ++ (mkTestCase now acc.length p.1 p.2).toList)

/-- The structural (DOM) extraction pass. -/
def structuralTestCases (doc : Doc) (now : String) : List TestCase :=
  structAux now (selectTestNodes doc).enum []

/-- doc.body textContent, defaulting to the raw HTML when absent or empty. -/
def bodyTextOf (html : String) (doc : Doc) : String :=
  match docBody doc with
  | some b => let t := nodeText b.2; if t == "" then html else t
  | none => html

/-- One synthetic record of the regex fallback loop. -/
def fallbackRecord (names : List String) (failCount skipCount : Nat) (i : Nat) : TestCase :=
  let status : Status :=
    if i < failCount then .fail else if i < failCount + skipCount then .skip else .pass
  let nm :=
    match names.get? i with
    | some t => let t2 := jsTrim t; if t2 == "" then "Test Case " ++ toString (i + 1) else t2
    | none => "Test Case " ++ toString (i + 1)
  { id := "extracted-" ++ toString (i + 1), name := nm,
    className := "Extracted from report", status := status, duration := 0 }

/-- The regex fallback extractor: aggregate counts from the body text,
name tokens from the raw HTML, at least one synthetic record. -/
def regexFallback (html : String) (doc : Doc) : List TestCase :=
  let bodyText := bodyTextOf html doc
  let passCount := (findCount "pass" ["ed"] bodyText).getD 0
  let failCount := (findCount "fail" ["ed", "ure"] bodyText).getD 0
  let skipCount := (findCount "skip" ["ped"] bodyText).getD 0
  let names := testNameTails html
  (List.range (max (passCount + failCount + skipCount) (max names.length 1))).map
    (fallbackRecord names failCount skipCount)

/-- The first parseSparkExtentReport implementation. -/
def parseSparkExtentReport (html : String) (doc : Doc) (now : String) : List TestCase :=
  let tcs := structuralTestCases doc now
  if tcs.isEmpty then regexFallback html doc else tcs

end Parser1

/-!
Second parseSparkExtentReport implementation (the shorter variant: one
selector group, no cascade, error fields only collected for failed
records, per-status fallback loops).
-/

namespace Parser2

def testNodesGroup : SelGroup :=
  [ [selC "test-content"], [selC "test"], [[.attrExistsSel "data-test"]] ]

def nameGroup : SelGroup :=
  [ [selC "test-name"], [selC "name"], [selT "h5"], [selC "card-title"] ]

def statusGroup : SelGroup :=
  [ [selC "status"], [selC "badge"], [[.attrContainsSel "class" "status"]] ]

def logGroup : SelGroup :=
  [ [selC "log"], [selC "step"], [selT "pre"], [selT "code"] ]

def durationGroup : SelGroup :=
  [ [selC "duration"], [selC "time"], [[.attrContainsSel "class" "time"]] ]

def classNameGroup : SelGroup :=
  [ [selC "class-name"], [selC "category"], [selC "test-class"] ]

/-- Status from the badge text and the node class string. -/
def classify (cn : ECtx × DomNode) : Status :=
  let statusText :=
    match qsNode cn statusGroup with
    | some q => strLower (nodeText q.2)
    | none => ""
  let nodeClasses := strLower cn.2.className
  if strIncludes statusText "fail" || strIncludes statusText "error" ||
     strIncludes nodeClasses "fail" || strIncludes nodeClasses "error" then .fail
  else if strIncludes statusText "skip" || strIncludes nodeClasses "skip" then .skip
  else .pass

structure LogState2 where
  logs : List String
  errorMessage : String
  stackTrace : String

/-- One step of the log scan; error fields only accumulate when the
already-fixed status is fail. -/
def logStep (status : Status) (s : LogState2) (text : String) : LogState2 :=
  if text == "" then s
  else
    let logs := s.logs ++ [text]
    if status == .fail then
      let st :=
        if strIncludes text "Exception" || strIncludes text "Error" ||
           strIncludes text "at " then
          (if s.stackTrace == "" then text else s.stackTrace ++ "\n" ++ text)
        else s.stackTrace
      let em :=
        if s.errorMessage == "" && (strIncludes text "AssertionError" ||
            strIncludes text "expected" || strIncludes text "Error:") then firstLine text
        else s.errorMessage
      ⟨logs, em, st⟩
    else ⟨logs, s.errorMessage, s.stackTrace⟩

/-- One node to exactly one record (no name-length guard here). -/
def mkTestCase (now : String) (i : Nat) (cn : ECtx × DomNode) : TestCase :=
  let status := classify cn
  let ls :=
    ((qsaNode cn logGroup).map (fun q => jsTrim (nodeText q.2))).foldl (logStep status)
      ⟨[], "", ""⟩
  let dtext :=
    match qsNode cn durationGroup with
    | some q => let t := nodeText q.2; if t == "" then "0" else t
    | none => "0"
  let duration :=
    (jsParseFloatDigits (String.mk (dtext.data.filter (fun c => jsDigit c || c == '.')))).getD 0
  let className :=
    match qsNode cn classNameGroup with
    | some q => let t := jsTrim (nodeText q.2); if t == "" then "Unknown Class" else t
    | none => "Unknown Class"
  let name :=
    match qsNode cn nameGroup with
    | some q => let t := jsTrim (nodeText q.2); if t == "" then "Test Case " ++ toString (i + 1) else t
    | none => "Test Case " ++ toString (i + 1)
  { id := "test-" ++ toString (i + 1), name := name, className := className,
    status := status, duration := duration,
    errorMessage := if ls.errorMessage == "" then none else some ls.errorMessage,
    stackTrace := if ls.stackTrace == "" then none else some ls.stackTrace,
    logs := if ls.logs.isEmpty then none else some ls.logs,
    timestamp := some now }

/-- The structural pass of the second implementation. -/
def structuralTestCases (doc : Doc) (now : String) : List TestCase :=
  (qsaDoc doc testNodesGroup).enum.map (fun p => mkTestCase now p.1 p.2)

/-- The summary-count fallback of the second implementation: body text
only, per-status loops in pass-fail-skip order. -/
def fallbackCases (doc : Doc) : List TestCase :=
  let bodyText :=
    match docBody doc with
    | some b => nodeText b.2
    | none => ""
  let passCount := (findCountCls "pass" "ed" bodyText).getD 0
  let failCount := (findCountCls "fail" "ed" bodyText).getD 0
  let skipCount := (findCountCls "skip" "ped" bodyText).getD 0
  ((List.range passCount).map (fun i =>
    ({ id := "pass-" ++ toString (i + 1), name := "Passed Test " ++ toString (i + 1),
       className := "Parsed from summary", status := .pass, duration := 0 } : TestCase)))
  ++ ((List.range failCount).map (fun i =>
    ({ id := "fail-" ++ toString (i + 1), name := "Failed Test " ++ toString (i + 1),
       className := "Parsed from summary", status := .fail, duration := 0,
       errorMessage := some "Error details not available from summary" } : TestCase)))
  ++ ((List.range skipCount).map (fun i =>
    ({ id := "skip-" ++ toString (i + 1), name := "Skipped Test " ++ toString (i + 1),
       className := "Parsed from summary", status := .skip, duration := 0 } : TestCase)))

/-- The second parseSparkExtentReport implementation (it reads the raw
HTML only through the parsed document). -/
def parseSparkExtentReport (doc : Doc) (now : String) : List TestCase :=
  let tcs := structuralTestCases doc now
  if tcs.isEmpty then fallbackCases doc else tcs

end Parser2

/-!
The analyze-report handler (the serverless analysis boundary).  The
request JSON, the environment key, the upstream HTTP call and the
JSON-plus-code-fence parsing of the model output are platform effects,
modelled as explicit arguments; everything after them is the handler
logic of the source.
-/

namespace Analyze

structure AnalysisFailure where
  testId : String
  rootCause : String
  category : String
  confidence : String
  evidence : Option (List String)
  suggestedFix : String
deriving DecidableEq, Repr

structure PatternRec where
  description : String
  occurrences : Nat
  affectedTests : List String
deriving DecidableEq, Repr

structure Recommendation where
  priority : String
  title : String
  description : String
  actionItems : List String
deriving DecidableEq, Repr

/-- Shape of a successfully parsed model reply. -/
structure AnalysisJson where
  failures : List AnalysisFailure
  patterns : Option (List PatternRec)
  recommendations : Option (List Recommendation)
deriving DecidableEq, Repr

structure MappedFailure where
  testCase : Option TestCase
  rootCause : String
  category : String
  confidence : String
  evidence : List String
  suggestedFix : String
deriving DecidableEq, Repr

structure Summary where
  total : Nat
  passed : Nat
  failed : Nat
  skipped : Nat
  duration : String
  passRate : Rat
deriving DecidableEq, Repr

structure AnalysisResult where
  summary : Summary
  failures : List MappedFailure
  patterns : List PatternRec
  recommendations : List Recommendation
deriving DecidableEq, Repr

inductive HandlerResponse where
  | errorResp (status : Nat) (message : String)
  | okResp (result : AnalysisResult)
deriving DecidableEq, Repr

/-- Outcome of the upstream gateway call: a non-ok HTTP status, or an
ok response whose choices[0].message.content may be absent. -/
inductive UpstreamOutcome where
  | httpError (status : Nat) (bodyText : String)
  | httpOk (content : Option String)

/-- The fixed fallback recommendation of the handler. -/
def manualReviewRec : Recommendation :=
  { priority := "high", title := "Manual Review Required",
    description := "AI analysis was unable to parse the failures completely. Manual review is recommended.",
    actionItems := ["Review each failure manually", "Check test logs for more context"] }

/-- The deterministic fallback analysis built from the failed tests. -/
def fallbackAnalysis (failedTests : List TestCase) : AnalysisJson :=
  { failures := failedTests.map (fun t =>
      { testId := t.id,
        rootCause := t.errorMessage.getD "Unable to determine root cause automatically",
        category := "automation_script_defect",
        confidence := "low",
        evidence := some [t.errorMessage.getD "No error message available"],
        suggestedFix := "Review the test implementation and logs manually" }),
    patterns := some [],
    recommendations := some [manualReviewRec] }

/-- Decimal formatting modelling Number.toFixed(1) on the exact value. -/
def fmt1 (q : Rat) : String :=
  let n := ((q * 10 + 1 / 2).floor : Int)
  toString (n / 10) ++ "." ++ toString (n % 10)

def computeSummary (testCases passedTests failedTests skippedTests : List TestCase) : Summary :=
  let totalDuration := (testCases.map (fun t => t.duration)).sum
  { total := testCases.length, passed := passedTests.length, failed := failedTests.length,
    skipped := skippedTests.length,
    duration := if totalDuration > 60 then fmt1 (totalDuration / 60) ++ "m"
                else fmt1 totalDuration ++ "s",
    passRate := if testCases.length > 0 then
        ((passedTests.length : Rat) / (testCases.length : Rat)) * 100
      else 0 }

/-- Map analysis failures back to their test cases by id, defaulting to
the first failed test. -/
def mapFailuresBack (failedTests : List TestCase) (fs : List AnalysisFailure) :
    List MappedFailure :=
  fs.map (fun f =>
    { testCase :=
        match failedTests.find? (fun t => t.id == f.testId) with
        | some t => some t
        | none => failedTests.head?,
      rootCause := f.rootCause, category := f.category, confidence := f.confidence,
      evidence := f.evidence.getD [], suggestedFix := f.suggestedFix })

/-- The analyze-report request handler after the platform effects are
made explicit.  A missing or non-array testCases field is reqBody none;
parseModelOutput models the code-fence extraction plus JSON.parse, and
its none outcome is the caught parse error. -/
def handleAnalyzeReport (apiKey : Option String)
    (reqBody : Option (List TestCase × Option String))
    (upstream : UpstreamOutcome)
    (parseModelOutput : String → Option AnalysisJson) : HandlerResponse :=
  match reqBody with
  | none => .errorResp 400 "Test cases array is required"
  | some (testCases, _rawContent) =>
    match apiKey with
    | none => .errorResp 500 "AI service not configured"
    | some _ =>
      let failedTests := testCases.filter (fun t => t.status == .fail)
      let skippedTests := testCases.filter (fun t => t.status == .skip)
      let passedTests := testCases.filter (fun t => t.status == .pass)
      match upstream with
      | .httpError status _ =>
        if status == 429 then
          .errorResp 429 "Rate limit exceeded. Please try again in a moment."
        else if status == 402 then
          .errorResp 402 "AI credits exhausted. Please add credits to continue."
        else .errorResp 500 "AI analysis failed"
      | .httpOk content =>
        let analysisResult :=
          match content with
          | none => fallbackAnalysis failedTests
          | some c =>
            match parseModelOutput c with
            | none => fallbackAnalysis failedTests
            | some a => a
        .okResp
          { summary := computeSummary testCases passedTests failedTests skippedTests,
            failures := mapFailuresBack failedTests analysisResult.failures,
            patterns := analysisResult.patterns.getD [],
            recommendations := analysisResult.recommendations.getD [] }

end Analyze

/-!  Concrete inputs used by witnesses and counterexamples.  Each doc
is the DOMParser result of the html string next to it. -/

def htmlMixedCounts : String :=
  "<html><body>Failed: 10 Failed: 3, Passed: 7, Skipped: 2</body></html>"

def docMixedCounts : Doc := mkDoc [.text "Failed: 10 Failed: 3, Passed: 7, Skipped: 2"]

def htmlPlainCounts : String := "<html><body>Failed: 3, Passed: 7, Skipped: 2</body></html>"

def docPlainCounts : Doc := mkDoc [.text "Failed: 3, Passed: 7, Skipped: 2"]

def htmlNoSignal : String := "<html><body>hello</body></html>"

def docNoSignal : Doc := mkDoc [.text "hello"]

def htmlPassWithError : String :=
  "<html><body><div class=\"test\">My test goes here<pre>Expected true to be false</pre></div></body></html>"

def docPassWithError : Doc :=
  mkDoc [.elem "div" [("class", "test")]
    [.text "My test goes here", .elem "pre" [] [.text "Expected true to be false"]]]

def docFailWithError : Doc :=
  mkDoc [.elem "div" [("class", "test fail")] [.elem "pre" [] [.text "Error: boom"]]]

/-- The record the second implementation produces on docFailWithError. -/
def tcFailBoom : TestCase :=
  { id := "test-1", name := "Test Case 1", className := "Unknown Class",
    status := .fail, duration := 0, errorMessage := some "Error: boom",
    stackTrace := some "Error: boom", logs := some ["Error: boom"],
    timestamp := some "T" }

def htmlShortName : String := "<html><body><div class=\"test\">ab</div></body></html>"

def docShortName : Doc := mkDoc [.elem "div" [("class", "test")] [.text "ab"]]

def docNodeClass : Doc := mkDoc [.elem "div" [("class", "node")] [.text "hello world"]]

def htmlOneOne : String := "<html><body>Failed: 1, Passed: 1, Skipped: 0</body></html>"

def docOneOne : Doc := mkDoc [.text "Failed: 1, Passed: 1, Skipped: 0"]

/-- A node whose whole-node evidence says pass while its badge carries
a danger class (a fail indicator invisible to the whole-node checks). -/
def cnPassBadgeDanger : ECtx × DomNode :=
  (⟨[], true⟩, .elem "div" [("class", "pass")]
    [.elem "span" [("class", "status danger")] [.text "x"]])

/-- A node whose whole-node evidence says fail while its badge carries
only pass indicators. -/
def cnFailBadgePass : ECtx × DomNode :=
  (⟨[], true⟩, .elem "div" [("class", "fail")]
    [.elem "span" [("class", "status")] [.text "passed"]])

def tcFail0 : TestCase :=
  { id := "t1", name := "login test", className := "suite", status := .fail, duration := 0 }

/-!  Theorems.  -/

theorem cascadeSelect_cons (doc : Doc) (g : SelGroup) (gs : List SelGroup) :
    Parser1.cascadeSelect doc (g :: gs) =
      if (qsaDoc doc g).isEmpty then Parser1.cascadeSelect doc gs
      else some (qsaDoc doc g) := by
  simp only [Parser1.cascadeSelect, List.findSome?_cons]
  by_cases h : (qsaDoc doc g).isEmpty <;> simp [h]

theorem cascadeSelect_first (doc : Doc) (gs : List SelGroup) :
    ∀ i : Nat, i < gs.length →
      (∀ j, j < i → (qsaDoc doc (gs.getD j [])).isEmpty = true) →
      (qsaDoc doc (gs.getD i [])).isEmpty = false →
      Parser1.cascadeSelect doc gs = some (qsaDoc doc (gs.getD i [])) := by
  induction gs with
  | nil => intro i hi; simp at hi
  | cons g gs ih =>
    intro i hi hpre hne
    cases i with
    | zero =>
      simp only [List.getD_cons_zero] at hne ⊢
      rw [cascadeSelect_cons, hne]
      simp
    | succ i =>
      have h0 : (qsaDoc doc g).isEmpty = true := by
        simpa using hpre 0 (Nat.succ_pos i)
      simp only [List.getD_cons_succ] at hne ⊢
      rw [cascadeSelect_cons, h0]
      simp only [if_true]
      exact ih i (Nat.lt_of_succ_lt_succ hi)
        (fun j hj => by simpa using hpre (j + 1) (Nat.succ_lt_succ hj)) hne

theorem cascadeSelect_none (doc : Doc) (gs : List SelGroup) :
    (∀ i, i < gs.length → (qsaDoc doc (gs.getD i [])).isEmpty = true) →
    Parser1.cascadeSelect doc gs = none := by
  induction gs with
  | nil => intro; rfl
  | cons g gs ih =>
    intro h
    have h0 : (qsaDoc doc g).isEmpty = true := by simpa using h 0 (by simp)
    rw [cascadeSelect_cons, h0]
    simp only [if_true]
    exact ih (fun i hi => by simpa using h (i + 1) (by simpa using Nat.succ_lt_succ hi))

theorem statusFallback_spec (doc : Doc) :
    qsaDoc doc Parser1.statusFallbackGroup =
      (docElemsC doc).filter (fun p => Parser1.classAttrHasStatusToken p.2) := by
  unfold qsaDoc
  apply List.filter_congr
  intro p _
  cases hp : p.2.attr "class" <;>
    simp [Parser1.statusFallbackGroup, Parser1.classAttrHasStatusToken, groupMatches,
      chainMatches, matchesCompound, matchesSimple, matchesAnc, hp, Bool.or_assoc]

/-- C7: the Node Selector Cascade returns the query result of the first
selector in its fixed list matching at least one element, regardless of
what later selectors would match; only when every listed selector
matches nothing does it fall back to the status-class query, which
selects exactly the elements whose class attribute contains pass, fail,
skip or error. -/
theorem nodeSelectorCascadeFirstWins (doc : Doc) :
    (∀ i, i < Parser1.sparkSelectors.length →
      (∀ j, j < i → (qsaDoc doc (Parser1.sparkSelectors.getD j [])).isEmpty = true) →
      (qsaDoc doc (Parser1.sparkSelectors.getD i [])).isEmpty = false →
      Parser1.selectTestNodes doc = qsaDoc doc (Parser1.sparkSelectors.getD i []))
    ∧ ((∀ i, i < Parser1.sparkSelectors.length →
        (qsaDoc doc (Parser1.sparkSelectors.getD i [])).isEmpty = true) →
      Parser1.selectTestNodes doc = qsaDoc doc Parser1.statusFallbackGroup ∧
        Parser1.selectTestNodes doc =
          (docElemsC doc).filter (fun p => Parser1.classAttrHasStatusToken p.2)) := by
  constructor
  · intro i hi hpre hne
    unfold Parser1.selectTestNodes
    rw [cascadeSelect_first doc Parser1.sparkSelectors i hi hpre hne]
    rfl
  · intro hall
    have hn := cascadeSelect_none doc Parser1.sparkSelectors hall
    unfold Parser1.selectTestNodes
    rw [hn]
    exact ⟨rfl, statusFallback_spec doc⟩

/-- Witness for C7: on a document whose only signal is a node-classed
div, the first seven selectors are empty, the eighth (the node class)
wins, and the cascade returns its query result. -/
theorem nodeSelectorCascadeFirstWins_w :
    Parser1.selectTestNodes docNodeClass =
      qsaDoc docNodeClass (Parser1.sparkSelectors.getD 7 []) :=
  (nodeSelectorCascadeFirstWins docNodeClass).1 7 (by decide) (by decide) (by decide)

theorem mkTestCase_toList_length (now : String) (L i : Nat) (cn : ECtx × DomNode) :
    (Parser1.mkTestCase now L i cn).toList.length =
      if Parser1.nameLenOk i cn then 1 else 0 := by
  unfold Parser1.mkTestCase Parser1.nameLenOk
  by_cases h : (!(Parser1.extractName cn i == "") &&
      decide ((Parser1.extractName cn i).length > 2)) = true
  · simp [h]
  · simp [h]

theorem structAux_length (now : String) (l : List (Nat × (ECtx × DomNode))) :
    ∀ acc : List TestCase,
      (Parser1.structAux now l acc).length =
        acc.length + (l.filter (fun p => Parser1.nameLenOk p.1 p.2)).length := by
  induction l with
  | nil => intro acc; simp [Parser1.structAux]
  | cons p rest ih =>
    intro acc
    simp only [Parser1.structAux]
    rw [ih, List.filter_cons]
    by_cases h : Parser1.nameLenOk p.1 p.2
    · simp [h, mkTestCase_toList_length]
      omega
    · simp [h, mkTestCase_toList_length]

/-- C5 counterexample: a document with exactly one matched test node
whose text is two characters long yields zero structural records, so
the structural record count does not equal the matched node count. -/
theorem structuralDropsShortNamedNode :
    (Parser1.selectTestNodes docShortName).length = 1 ∧
    (Parser1.structuralTestCases docShortName "T").length = 0 ∧
    (Parser1.structuralTestCases docShortName "T").length ≠
      (Parser1.selectTestNodes docShortName).length :=
  ⟨by decide, by decide, by decide⟩

theorem mkTestCase_toList_map_id (now : String) (L i : Nat) (cn : ECtx × DomNode) :
    (Parser1.mkTestCase now L i cn).toList.map (fun r => r.id) =
      if Parser1.nameLenOk i cn then ["test-" ++ toString (i + 1)] else [] := by
  unfold Parser1.mkTestCase Parser1.nameLenOk
  by_cases h : (!(Parser1.extractName cn i == "") &&
      decide ((Parser1.extractName cn i).length > 2)) = true
  · simp [h]
  · simp [h]

theorem structAux_map_id (now : String) (l : List (Nat × (ECtx × DomNode))) :
    ∀ acc : List TestCase,
      (Parser1.structAux now l acc).map (fun r => r.id) =
        acc.map (fun r => r.id) ++
          (l.filter (fun p => Parser1.nameLenOk p.1 p.2)).map
            (fun p => "test-" ++ toString (p.1 + 1)) := by
  induction l with
  | nil => intro acc; simp [Parser1.structAux]
  | cons p rest ih =>
    intro acc
    simp only [Parser1.structAux]
    rw [ih, List.filter_cons]
    by_cases h : Parser1.nameLenOk p.1 p.2
    · simp [h, mkTestCase_toList_map_id]
    · simp [h, mkTestCase_toList_map_id]

/-- C5 amended: every node matched by the cascade yields at most one
record; it yields exactly one precisely when the name extracted for it
is longer than two characters, so the structural record count equals
the count of matched nodes passing that guard, and the records appear
in document order with ids derived from the node positions. -/
theorem structuralOneRecordPerNamedNode (doc : Doc) (now : String) :
    (Parser1.structuralTestCases doc now).length =
      ((Parser1.selectTestNodes doc).enum.filter
        (fun p => Parser1.nameLenOk p.1 p.2)).length ∧
    (Parser1.structuralTestCases doc now).map (fun r => r.id) =
      ((Parser1.selectTestNodes doc).enum.filter
        (fun p => Parser1.nameLenOk p.1 p.2)).map
          (fun p => "test-" ++ toString (p.1 + 1)) := by
  constructor
  · simp [Parser1.structuralTestCases, structAux_length]
  · simp [Parser1.structuralTestCases, structAux_map_id]

theorem stripTimestamp_mkTestCase (t1 t2 : String) (L i : Nat) (cn : ECtx × DomNode) :
    (Parser1.mkTestCase t1 L i cn).map stripTimestamp =
    (Parser1.mkTestCase t2 L i cn).map stripTimestamp := by
  unfold Parser1.mkTestCase
  by_cases h : (!(Parser1.extractName cn i == "") &&
      decide ((Parser1.extractName cn i).length > 2)) = true
  · simp only [h, if_true, Option.map_some]
    simp [stripTimestamp]
  · simp [h]

theorem structAux_map_strip (t1 t2 : String) (l : List (Nat × (ECtx × DomNode))) :
    ∀ a1 a2 : List TestCase, a1.map stripTimestamp = a2.map stripTimestamp →
      (Parser1.structAux t1 l a1).map stripTimestamp =
      (Parser1.structAux t2 l a2).map stripTimestamp := by
  induction l with
  | nil => intro a1 a2 h; simpa [Parser1.structAux] using h
  | cons p rest ih =>
    intro a1 a2 h
    have hlen : a1.length = a2.length := by
      have := congrArg List.length h; simpa using this
    simp only [Parser1.structAux]
    apply ih
    rw [List.map_append, List.map_append, h, hlen]
    have hm := stripTimestamp_mkTestCase t1 t2 a2.length p.1 p.2
    cases e1 : Parser1.mkTestCase t1 a2.length p.1 p.2 <;>
      cases e2 : Parser1.mkTestCase t2 a2.length p.1 p.2 <;>
      rw [e1, e2] at hm <;> simp_all

theorem length_eq_isEmpty {α β : Type} {l1 : List α} {l2 : List β}
    (h : l1.length = l2.length) : l1.isEmpty = l2.isEmpty := by
  cases l1 <;> cases l2 <;> simp_all

/-- C6: parseSparkExtentReport is deterministic up to timestamps: runs
with different clock values agree on every field except timestamp (in
particular the record ids depend only on document order). -/
theorem parserDeterministicUpToTimestamp (html : String) (doc : Doc) (t1 t2 : String) :
    (Parser1.parseSparkExtentReport html doc t1).map stripTimestamp =
    (Parser1.parseSparkExtentReport html doc t2).map stripTimestamp := by
  have hs := structAux_map_strip t1 t2 (Parser1.selectTestNodes doc).enum [] [] rfl
  have hlen : (Parser1.structAux t1 (Parser1.selectTestNodes doc).enum []).length
      = (Parser1.structAux t2 (Parser1.selectTestNodes doc).enum []).length := by
    have := congrArg List.length hs; simpa using this
  have hemp := length_eq_isEmpty hlen
  simp only [Parser1.parseSparkExtentReport, Parser1.structuralTestCases]
  by_cases he : (Parser1.structAux t1 (Parser1.selectTestNodes doc).enum []).isEmpty
  · rw [he] at hemp
    simp [he, ← hemp]
  · rw [eq_comm] at hemp
    simp only [Bool.not_eq_true] at he
    rw [he] at hemp
    simp [he, hemp, hs]

/-- C2: badge overrides whole-node verdict.  If the whole-node
heuristics classify a candidate node as pass but the dedicated
status-badge sub-element the classifier selects exists and its text or
class carries a fail indicator, the final status is fail. -/
theorem badgeFailOverridesPass (cn : ECtx × DomNode)
    (_hw : Parser1.wholeNodeStatus cn.2 = .pass)
    (hb : (Parser1.badgeEl cn).isSome = true)
    (hf : Parser1.badgeFailInd cn = true) :
    Parser1.classifyStatus cn = .fail := by
  unfold Parser1.classifyStatus
  cases e : Parser1.badgeEl cn with
  | none => rw [e] at hb; simp at hb
  | some b => simp [e, hf]

/-- Witness for C2: a pass-classed node whose badge carries a danger
class is classified fail. -/
theorem badgeFailOverridesPass_w : Parser1.classifyStatus cnPassBadgeDanger = .fail :=
  badgeFailOverridesPass cnPassBadgeDanger (by decide) (by decide) (by decide)

/-- C10: the badge re-evaluation stage is one-directional.  A final
pass verdict can only come from a whole-node pass verdict, and a
whole-node fail verdict survives when the selected badge carries
neither a fail nor a skip indicator (in particular when it carries only
pass indicators). -/
theorem badgeStageNeverProducesPass (cn : ECtx × DomNode) :
    (Parser1.classifyStatus cn = .pass → Parser1.wholeNodeStatus cn.2 = .pass)
    ∧ (Parser1.wholeNodeStatus cn.2 = .fail → Parser1.badgeFailInd cn = false →
       Parser1.badgeSkipInd cn = false → Parser1.classifyStatus cn = .fail) := by
  constructor
  · intro h
    unfold Parser1.classifyStatus at h
    cases e : Parser1.badgeEl cn <;> rw [e] at h
    · exact h
    · by_cases hf : Parser1.badgeFailInd cn = true
      · simp [hf] at h
      · by_cases hs : Parser1.badgeSkipInd cn = true
        · simp [hf, hs] at h
        · simpa [hf, hs] using h
  · intro hw hf hs
    unfold Parser1.classifyStatus
    cases e : Parser1.badgeEl cn <;> simp [hf, hs, hw]

/-- Witness for C10: a fail-classed node whose badge says passed stays
fail. -/
theorem badgeStageNeverProducesPass_w : Parser1.classifyStatus cnFailBadgePass = .fail :=
  (badgeStageNeverProducesPass cnFailBadgePass).2 (by decide) (by decide) (by decide)

/-- C1 counterexample: an input whose body text contains the sentence
Failed: 3, Passed: 7, Skipped: 2 and no test-name token, with zero
matched structural elements, for which the parser returns 19 records
rather than 12, because an earlier Failed: 10 occurrence wins the
leftmost fail-count match. -/
theorem regexFallbackExtraCountMatch :
    (Parser1.selectTestNodes docMixedCounts).isEmpty = true ∧
    strIncludes (Parser1.bodyTextOf htmlMixedCounts docMixedCounts)
      "Failed: 3, Passed: 7, Skipped: 2" = true ∧
    testNameTails htmlMixedCounts = [] ∧
    (Parser1.parseSparkExtentReport htmlMixedCounts docMixedCounts "T").length = 19 ∧
    (Parser1.parseSparkExtentReport htmlMixedCounts docMixedCounts "T").length ≠ 12 :=
  ⟨by decide, by decide, by decide, by decide, by decide⟩

theorem structural_empty_of_select_empty (doc : Doc) (now : String)
    (hsel : (Parser1.selectTestNodes doc).isEmpty = true) :
    Parser1.structuralTestCases doc now = [] := by
  have h : Parser1.selectTestNodes doc = [] := by
    cases e : Parser1.selectTestNodes doc
    · rfl
    · rw [e] at hsel; simp at hsel
  simp [Parser1.structuralTestCases, h, Parser1.structAux]

/-- C1 amended: for every input on which the selector cascade (with its
class fallback) matches zero elements, whose body-text count extraction
yields fail 3, pass 7 and skip 2 (as it does when the body text is
exactly Failed: 3, Passed: 7, Skipped: 2), and which contains no
test-name token, the parser returns exactly 12 records: the first 3
fail, the next 2 skip, the remaining 7 pass. -/
theorem regexFallbackCounts372 (html : String) (doc : Doc) (now : String)
    (hsel : (Parser1.selectTestNodes doc).isEmpty = true)
    (hfail : findCount "fail" ["ed", "ure"] (Parser1.bodyTextOf html doc) = some 3)
    (hpass : findCount "pass" ["ed"] (Parser1.bodyTextOf html doc) = some 7)
    (hskip : findCount "skip" ["ped"] (Parser1.bodyTextOf html doc) = some 2)
    (hnames : testNameTails html = []) :
    (Parser1.parseSparkExtentReport html doc now).map (fun r => r.status) =
      [.fail, .fail, .fail, .skip, .skip,
       .pass, .pass, .pass, .pass, .pass, .pass, .pass] ∧
    (Parser1.parseSparkExtentReport html doc now).length = 12 := by
  have hempty := structural_empty_of_select_empty doc now hsel
  simp only [Parser1.parseSparkExtentReport, hempty, List.isEmpty_nil, if_true]
  simp only [Parser1.regexFallback, hfail, hpass, hskip, hnames]
  constructor <;> decide

/-- Witness for C1: the body text exactly Failed: 3, Passed: 7,
Skipped: 2 produces the 12-record pattern. -/
theorem regexFallbackCounts372_w :
    (Parser1.parseSparkExtentReport htmlPlainCounts docPlainCounts "T").map
        (fun r => r.status) =
      [.fail, .fail, .fail, .skip, .skip,
       .pass, .pass, .pass, .pass, .pass, .pass, .pass] ∧
    (Parser1.parseSparkExtentReport htmlPlainCounts docPlainCounts "T").length = 12 :=
  regexFallbackCounts372 htmlPlainCounts docPlainCounts "T"
    (by decide) (by decide) (by decide) (by decide) (by decide)

/-- C3: when the structural pass yields zero records, no count pattern
matches and no test-name token matches, the parser returns exactly one
placeholder pass record, never the empty sequence. -/
theorem emptySignalsYieldSinglePassRecord (html : String) (doc : Doc) (now : String)
    (hstruct : Parser1.structuralTestCases doc now = [])
    (hfail : findCount "fail" ["ed", "ure"] (Parser1.bodyTextOf html doc) = none)
    (hpass : findCount "pass" ["ed"] (Parser1.bodyTextOf html doc) = none)
    (hskip : findCount "skip" ["ped"] (Parser1.bodyTextOf html doc) = none)
    (hnames : testNameTails html = []) :
    Parser1.parseSparkExtentReport html doc now =
      [{ id := "extracted-1", name := "Test Case 1",
         className := "Extracted from report", status := .pass, duration := 0 }] := by
  simp only [Parser1.parseSparkExtentReport, hstruct, List.isEmpty_nil, if_true]
  simp only [Parser1.regexFallback, hfail, hpass, hskip, hnames]
  decide

/-- Witness for C3: a document whose body text is hello. -/
theorem emptySignalsYieldSinglePassRecord_w :
    Parser1.parseSparkExtentReport htmlNoSignal docNoSignal "T" =
      [{ id := "extracted-1", name := "Test Case 1",
         className := "Extracted from report", status := .pass, duration := 0 }] :=
  emptySignalsYieldSinglePassRecord htmlNoSignal docNoSignal "T"
    (by decide) (by decide) (by decide) (by decide) (by decide)

/-- C4 counterexample: the first implementation attaches an error
message to a record whose status is pass, because its error-text scan
is not guarded by the status (a pre block containing Expected matches
the error-message substrings while triggering no fail evidence). -/
theorem passRecordCarriesErrorMessage :
    (Parser1.parseSparkExtentReport htmlPassWithError docPassWithError "T").map
        (fun r => (r.status, r.errorMessage)) =
      [(Status.pass, some "Expected true to be false")] := by decide

theorem logStep_preserves (status : Status) (h : (status == Status.fail) = false)
    (s : Parser2.LogState2) (t : String) :
    (Parser2.logStep status s t).errorMessage = s.errorMessage ∧
    (Parser2.logStep status s t).stackTrace = s.stackTrace := by
  unfold Parser2.logStep
  by_cases ht : (t == "") = true
  · simp [ht]
  · simp [ht, h]

theorem logFold_empty (status : Status) (h : (status == Status.fail) = false)
    (texts : List String) :
    ∀ s : Parser2.LogState2, s.errorMessage = "" → s.stackTrace = "" →
      (texts.foldl (Parser2.logStep status) s).errorMessage = "" ∧
      (texts.foldl (Parser2.logStep status) s).stackTrace = "" := by
  induction texts with
  | nil => intro s h1 h2; exact ⟨h1, h2⟩
  | cons t ts ih =>
    intro s h1 h2
    simp only [List.foldl_cons]
    have hp := logStep_preserves status h s t
    exact ih (Parser2.logStep status s t) (hp.1.trans h1) (hp.2.trans h2)

theorem mkTestCase2_error_implies_fail (now : String) (i : Nat) (cn : ECtx × DomNode)
    (he : (Parser2.mkTestCase now i cn).errorMessage ≠ none ∨
          (Parser2.mkTestCase now i cn).stackTrace ≠ none) :
    (Parser2.mkTestCase now i cn).status = .fail := by
  by_cases hc : Parser2.classify cn = .fail
  · simp [Parser2.mkTestCase, hc]
  · exfalso
    have hb : (Parser2.classify cn == Status.fail) = false := by
      cases e : Parser2.classify cn
      · rfl
      · exact absurd e hc
      · rfl
    have hf := logFold_empty (Parser2.classify cn) hb
      ((qsaNode cn Parser2.logGroup).map (fun q => jsTrim (nodeText q.2)))
      ⟨[], "", ""⟩ rfl rfl
    rcases he with he | he <;>
      simp [Parser2.mkTestCase, hf.1, hf.2] at he

/-- C4 amended: in the second implementation every record carries an
errorMessage or stackTrace only when its status is fail; in the first
implementation the fields may also appear on pass records, since its
error-text scan ignores the status. -/
theorem parser2ErrorFieldsOnlyOnFail (doc : Doc) (now : String) (r : TestCase)
    (hm : r ∈ Parser2.parseSparkExtentReport doc now)
    (he : r.errorMessage ≠ none ∨ r.stackTrace ≠ none) : r.status = .fail := by
  unfold Parser2.parseSparkExtentReport at hm
  by_cases hs : (Parser2.structuralTestCases doc now).isEmpty
  · rw [if_pos hs] at hm
    simp only [Parser2.fallbackCases, List.mem_append, List.mem_map,
      List.mem_range] at hm
    rcases hm with (⟨i, _, hr⟩ | ⟨i, _, hr⟩) | ⟨i, _, hr⟩ <;> subst hr
    · simp at he
    · rfl
    · simp at he
  · rw [if_neg hs] at hm
    simp only [Parser2.structuralTestCases, List.mem_map] at hm
    obtain ⟨p, _, hr⟩ := hm
    subst hr
    exact mkTestCase2_error_implies_fail now p.1 p.2 he

/-- Witness for C4: the record the second implementation produces for a
failing node with an error block has status fail. -/
theorem parser2ErrorFieldsOnlyOnFail_w : tcFailBoom.status = .fail :=
  parser2ErrorFieldsOnlyOnFail docFailWithError "T" tcFailBoom (by decide) (by decide)

/-- C8: the two parseSparkExtentReport implementations disagree even
after stripping timestamps: on a body reading Failed: 1, Passed: 1,
Skipped: 0 the first emits a fail record then a pass record while the
second emits pass then fail, with different ids and fields. -/
theorem parserImplementationsDiffer :
    (Parser1.parseSparkExtentReport htmlOneOne docOneOne "T").map stripTimestamp ≠
    (Parser2.parseSparkExtentReport docOneOne "T").map stripTimestamp := by decide

/-- C9: when the request is well formed and the model reply cannot be
parsed, the analyze-report handler returns a success response whose
analysis is the deterministic fallback: one failure entry per failed
test with category automation_script_defect and confidence low, no
patterns, and the single fixed high-priority recommendation; the result
depends only on the submitted test cases. -/
theorem analyzeFallsBackDeterministically (tcs : List TestCase) (raw : Option String)
    (key content : String) (parseFn : String → Option Analyze.AnalysisJson)
    (hp : parseFn content = none) :
    ∃ r, Analyze.handleAnalyzeReport (some key) (some (tcs, raw))
        (.httpOk (some content)) parseFn = .okResp r ∧
      r.failures.length = (tcs.filter (fun t => t.status == .fail)).length ∧
      (∀ f ∈ r.failures, f.category = "automation_script_defect" ∧ f.confidence = "low") ∧
      r.patterns = [] ∧
      r.recommendations = [Analyze.manualReviewRec] ∧
      (∀ (key2 content2 : String) (raw2 : Option String)
        (parseFn2 : String → Option Analyze.AnalysisJson), parseFn2 content2 = none →
        Analyze.handleAnalyzeReport (some key2) (some (tcs, raw2))
          (.httpOk (some content2)) parseFn2 = .okResp r) := by
  refine ⟨⟨Analyze.computeSummary tcs (tcs.filter (fun t => t.status == .pass))
      (tcs.filter (fun t => t.status == .fail)) (tcs.filter (fun t => t.status == .skip)),
    Analyze.mapFailuresBack (tcs.filter (fun t => t.status == .fail))
      (Analyze.fallbackAnalysis (tcs.filter (fun t => t.status == .fail))).failures,
    [], [Analyze.manualReviewRec]⟩, ?_, ?_, ?_, ?_, ?_, ?_⟩
  · simp only [Analyze.handleAnalyzeReport, hp]
    rfl
  · simp [Analyze.mapFailuresBack, Analyze.fallbackAnalysis]
  · intro f hf
    simp only [Analyze.mapFailuresBack, Analyze.fallbackAnalysis, List.map_map,
      List.mem_map] at hf
    obtain ⟨t, _, hr⟩ := hf
    subst hr
    exact ⟨rfl, rfl⟩
  · rfl
  · rfl
  · intro key2 content2 raw2 parseFn2 hp2
    simp only [Analyze.handleAnalyzeReport, hp2]
    rfl

/-- Witness for C9: one failed test case and an unparseable reply. -/
theorem analyzeFallsBackDeterministically_w :
    ∃ r, Analyze.handleAnalyzeReport (some "key") (some ([tcFail0], none))
        (.httpOk (some "not json")) (fun _ => none) = .okResp r ∧
      r.failures.length = ([tcFail0].filter (fun t => t.status == .fail)).length ∧
      (∀ f ∈ r.failures, f.category = "automation_script_defect" ∧ f.confidence = "low") ∧
      r.patterns = [] ∧
      r.recommendations = [Analyze.manualReviewRec] ∧
      (∀ (key2 content2 : String) (raw2 : Option String)
        (parseFn2 : String → Option Analyze.AnalysisJson), parseFn2 content2 = none →
        Analyze.handleAnalyzeReport (some key2) (some ([tcFail0], raw2))
          (.httpOk (some content2)) parseFn2 = .okResp r) :=
  analyzeFallsBackDeterministically [tcFail0] none "key" "not json" (fun _ => none) rfl

end Spark
